import Mathlib

/-
Verification of the in-process event-distribution subsystem of the
semantic-workbench service.

Shallow embedding of
`semantic-workbench-service/semantic_workbench_service/service.py`:
the ingestion gate (`_notify_event`), the delivery queue
(`conversation_event_queue`), the subscriber registry
(`conversation_sse_queues`), the broadcaster
(`_broadcast_conversation_events`), the streaming-session cleanup in
`event_generator`, and the shutdown sequence in `_lifespan`.

Python dicts are embedded as association lists over `Nat` keys (uuid values
are abstracted to `Nat`); the keys of a Python dict are unique, so the
first-match lookup below agrees with dict lookup on every state the service
can construct.  `asyncio.Queue` objects are embedded as Lean lists with the
head at the front.
-/

set_option maxHeartbeats 1000000

namespace SemanticWorkbench

/-- Modelled from the spec: `ConversationEvent`
(`semantic_workbench_api_model.workbench_model`, imported by `service.py`
but not itself part of the analysed sources).  Per the spec's data model it
carries a unique id, a conversation id, an event kind (its enum label is
embedded as a `String`), a correlation id, a timestamp, and an opaque
structured payload (`data`, embedded as an opaque `String`). -/
structure ConversationEvent where
  id : Nat
  conversation_id : Nat
  event : String
  correlation_id : Nat
  timestamp : Nat
  data : String
deriving DecidableEq, Repr

/-- Modelled from the spec: `ConversationEventQueueItem` (module
`semantic_workbench_service.event`, imported by `service.py` but not itself
part of the analysed sources).  Per the spec an envelope is an event paired
with its audience, a subset of \x7bassistant, user\x7d, embedded as a list of
`String` labels. -/
structure ConversationEventQueueItem where
  event : ConversationEvent
  event_audience : List String
deriving DecidableEq, Repr

/-- Lookup in an association-list embedding of a Python dict: the value at
the first occurrence of the key, `none` when the key is absent. -/
def dictGet {α : Type} : List (Nat × α) → Nat → Option α
  | [], _ => none
  | (k', v) :: rest, k => if k' = k then some v else dictGet rest k

/-- Lookup with a default value, embedding Python's `dict.get(k, d)`. -/
def dictGetD {α : Type} (d : List (Nat × α)) (k : Nat) (v₀ : α) : α :=
  (dictGet d k).getD v₀

/-- Assignment `d[k] = v`: replace the value at an existing key in place,
otherwise append the new binding at the end (Python dicts preserve
insertion order). -/
def dictInsert {α : Type} : List (Nat × α) → Nat → α → List (Nat × α)
  | [], k, v => [(k, v)]
  | (k', v') :: rest, k, v =>
    if k' = k then (k, v) :: rest else (k', v') :: dictInsert rest k v

/-- Removal `d.pop(k, None)`: drop every binding of the key (a Python dict
holds at most one) and never fail when the key is absent. -/
def dictPop {α : Type} : List (Nat × α) → Nat → List (Nat × α)
  | [], _ => []
  | (k', v) :: rest, k =>
    if k' = k then dictPop rest k else (k', v) :: dictPop rest k

/-- Per-conversation subscriber map: `queue_id → sse queue contents`, the
inner dict of `conversation_sse_queues`.  A queue's contents are the events
put to it, oldest first. -/
abbrev SseQueueDict : Type := List (Nat × List ConversationEvent)

/-- Registry type of `conversation_sse_queues : dict[uuid.UUID, dict[str,
asyncio.Queue[ConversationEvent]]]` (service.py line 103). -/
abbrev SseRegistry : Type := List (Nat × SseQueueDict)

/-- Global mutable state of `init` (service.py lines 99-103), plus two
observation fields: `forwarded_to_assistants` records the events handed to
`assistant_controller.forward_event_to_assistants`, and `dispatched`
records the envelopes whose fan-out iteration completed (reached
`task_done`, line 246). -/
structure ServiceState where
  stop_signal : Bool
  conversation_event_queue : List ConversationEventQueueItem
  conversation_sse_queues : SseRegistry
  forwarded_to_assistants : List ConversationEvent
  dispatched : List ConversationEventQueueItem
  correlation_context : Option Nat
deriving DecidableEq, Repr

/-- Initial state built by `init` (service.py lines 99-103): stop signal
clear, empty delivery queue, empty registry. -/
def init_service_state : ServiceState :=
  { stop_signal := false
    conversation_event_queue := []
    conversation_sse_queues := []
    forwarded_to_assistants := []
    dispatched := []
    correlation_context := none }

/-- Ingestion gate `_notify_event` (service.py lines 105-121): when the
stop signal is set the envelope is dropped with only a log line; otherwise
it is appended to the tail of the delivery queue.  Both paths return
normally. -/
def notify_event (s : ServiceState) (queue_item : ConversationEventQueueItem) : ServiceState :=
  if s.stop_signal then s
  else { s with conversation_event_queue := s.conversation_event_queue ++ [queue_item] }

/-- Fan-out of one event to the subscribers of its conversation
(service.py lines 234-243): iterate `conversation_sse_queues.get(
event.conversation_id, \x7b\x7d).items()` and put the event to every queue.
The lookup takes a default and never inserts, so an absent conversation
leaves the registry untouched. -/
def put_event_to_conversation (reg : SseRegistry) (c : Nat) (e : ConversationEvent) :
    SseRegistry :=
  match dictGet reg c with
  | none => reg
  | some qs => dictInsert reg c (qs.map (fun q => (q.1, q.2 ++ [e])))

/-- One iteration of the broadcaster loop `_broadcast_conversation_events`
(service.py lines 214-249) when the queue is non-empty: dequeue the head,
set the ambient correlation context, forward to assistants when the
audience contains "assistant", put to every registered subscriber queue of
the conversation when the audience contains "user", and mark the item done.
An empty queue suspends `queue.get()`, embedded as a no-op. -/
def broadcast_step (s : ServiceState) : ServiceState :=
  match s.conversation_event_queue with
  | [] => s
  | queue_item :: rest =>
    let event := queue_item.event
    { s with
      conversation_event_queue := rest
      correlation_context := some event.correlation_id
      forwarded_to_assistants :=
        if "assistant" ∈ queue_item.event_audience
        then s.forwarded_to_assistants ++ [event]
        else s.forwarded_to_assistants
      conversation_sse_queues :=
        if "user" ∈ queue_item.event_audience
        then put_event_to_conversation s.conversation_sse_queues event.conversation_id event
        else s.conversation_sse_queues
      dispatched := s.dispatched ++ [queue_item] }

/-- Streaming-session registration (service.py lines 530-535):
`conversation_sse_queues[conversation_id]` is a `defaultdict` access that
creates an empty entry when absent, then `queues[queue_id] = event_queue`
stores a fresh empty queue under the new subscriber id. -/
def register_sse (s : ServiceState) (c queue_id : Nat) : ServiceState :=
  let queues := dictGetD s.conversation_sse_queues c []
  { s with
    conversation_sse_queues :=
      dictInsert s.conversation_sse_queues c (dictInsert queues queue_id []) }

/-- Streaming-session cleanup (service.py lines 583-587):
`queues.pop(queue_id, None)`, then, when the conversation's subscriber map
became empty, `conversation_sse_queues.pop(conversation_id, None)`. -/
def unregister_sse (reg : SseRegistry) (c queue_id : Nat) : SseRegistry :=
  match dictGet reg c with
  | none => reg
  | some qs =>
    let qs' := dictPop qs queue_id
    if qs'.isEmpty then dictPop reg c else dictInsert reg c qs'

/-- Contents of one subscriber's private sse queue, `none` when the
subscriber is not registered for the conversation. -/
def channel_contents (reg : SseRegistry) (c queue_id : Nat) :
    Option (List ConversationEvent) :=
  dictGet (dictGetD reg c []) queue_id

/-- Interleavable operations of the subsystem: a producer call through the
ingestion gate, one broadcaster iteration, a streaming-session connect
(registration) or exit (cleanup), and setting the stop signal. -/
inductive ServiceOp where
  | notify (queue_item : ConversationEventQueueItem)
  | broadcast
  | connectSse (c queue_id : Nat)
  | disconnectSse (c queue_id : Nat)
  | setStop
deriving DecidableEq, Repr

/-- Apply one operation to the service state. -/
def apply_op (s : ServiceState) : ServiceOp → ServiceState
  | .notify queue_item => notify_event s queue_item
  | .broadcast => broadcast_step s
  | .connectSse c queue_id => register_sse s c queue_id
  | .disconnectSse c queue_id =>
    { s with conversation_sse_queues := unregister_sse s.conversation_sse_queues c queue_id }
  | .setStop => { s with stop_signal := true }

/-- Run a trace of operations from a state. -/
def run_ops (s : ServiceState) : List ServiceOp → ServiceState
  | [] => s
  | op :: rest => run_ops (apply_op s op) rest

/-- Envelopes the ingestion gate accepts along a trace: a `notify` enqueues
its envelope exactly when the stop signal is clear at that moment
(service.py lines 106-115). -/
def accepted_items (s : ServiceState) : List ServiceOp → List ConversationEventQueueItem
  | [] => []
  | op :: rest =>
    (match op with
     | .notify queue_item => if s.stop_signal then [] else [queue_item]
     | _ => []) ++ accepted_items (apply_op s op) rest

/-- Run `n` broadcaster iterations. -/
def drain_steps (s : ServiceState) : Nat → ServiceState
  | 0 => s
  | n + 1 => drain_steps (broadcast_step s) n

/-- Drain the delivery queue: run one broadcaster iteration per queued
envelope, the behaviour `conversation_event_queue.join()` waits for during
shutdown (service.py line 193). -/
def drain_queue (s : ServiceState) : ServiceState :=
  drain_steps s s.conversation_event_queue.length

/-- Selection the broadcaster applies for conversation `c`'s subscribers:
the envelope's audience contains "user" and its event belongs to `c`
(service.py lines 234-235). -/
def user_event_for (c : Nat) (queue_item : ConversationEventQueueItem) : Bool :=
  decide ("user" ∈ queue_item.event_audience) && decide (queue_item.event.conversation_id = c)

/-- Events still queued that conversation `c`'s subscribers are due to
receive. -/
def pending_user_events (c : Nat) (s : ServiceState) : List ConversationEvent :=
  (s.conversation_event_queue.filter (user_event_for c)).map (fun queue_item => queue_item.event)

theorem dictGet_dictInsert_self {α : Type} (d : List (Nat × α)) (k : Nat) (v : α) :
    dictGet (dictInsert d k v) k = some v := by
  induction d with
  | nil => simp [dictInsert, dictGet]
  | cons hd tl ih =>
    by_cases h : hd.1 = k
    · simp [dictInsert, h, dictGet]
    · simpa [dictInsert, h, dictGet] using ih

theorem dictGet_dictInsert_ne {α : Type} (d : List (Nat × α)) (k' k : Nat) (v : α)
    (h : k' ≠ k) : dictGet (dictInsert d k' v) k = dictGet d k := by
  induction d with
  | nil => simp [dictInsert, dictGet, h]
  | cons hd tl ih =>
    by_cases hh : hd.1 = k'
    · simp [dictInsert, hh, dictGet, h]
    · simp [dictInsert, hh, dictGet]
      by_cases hk : hd.1 = k
      · simp [hk]
      · simpa [hk] using ih

theorem dictGet_dictPop_self {α : Type} (d : List (Nat × α)) (k : Nat) :
    dictGet (dictPop d k) k = none := by
  induction d with
  | nil => simp [dictPop, dictGet]
  | cons hd tl ih =>
    by_cases h : hd.1 = k
    · simpa [dictPop, h] using ih
    · simpa [dictPop, h, dictGet] using ih

theorem dictGet_dictPop_ne {α : Type} (d : List (Nat × α)) (k' k : Nat) (h : k' ≠ k) :
    dictGet (dictPop d k') k = dictGet d k := by
  induction d with
  | nil => simp [dictPop]
  | cons hd tl ih =>
    by_cases hh : hd.1 = k'
    · simpa [dictPop, hh, dictGet, h] using ih
    · simp [dictPop, hh, dictGet]
      by_cases hk : hd.1 = k
      · simp [hk]
      · simpa [hk] using ih

theorem dictInsert_get_self {α : Type} (d : List (Nat × α)) (k : Nat) (v : α)
    (h : dictGet d k = some v) : dictInsert d k v = d := by
  induction d with
  | nil => simp [dictGet] at h
  | cons hd tl ih =>
    obtain ⟨a, b⟩ := hd
    by_cases hh : a = k
    · subst hh
      simp [dictGet] at h
      simp [dictInsert, h]
    · simp [dictGet, hh] at h
      simp [dictInsert, hh, ih h]

theorem dictPop_get_none {α : Type} (d : List (Nat × α)) (k : Nat)
    (h : dictGet d k = none) : dictPop d k = d := by
  induction d with
  | nil => simp [dictPop]
  | cons hd tl ih =>
    by_cases hh : hd.1 = k
    · simp [dictGet, hh] at h
    · simp [dictGet, hh] at h
      simp [dictPop, hh, ih h]

theorem dictGet_map_values {α β : Type} (d : List (Nat × α)) (g : α → β) (k : Nat) :
    dictGet (d.map (fun p => (p.1, g p.2))) k = (dictGet d k).map g := by
  induction d with
  | nil => simp [dictGet]
  | cons hd tl ih =>
    by_cases h : hd.1 = k
    · simp [dictGet, h]
    · simpa [dictGet, h] using ih

theorem channel_contents_put_event (reg : SseRegistry) (c' c q : Nat) (e : ConversationEvent)
    (ch : List ConversationEvent) (h : channel_contents reg c q = some ch) :
    channel_contents (put_event_to_conversation reg c' e) c q
      = if c' = c then some (ch ++ [e]) else some ch := by
  by_cases hc : c' = c
  · subst hc
    match hq : dictGet reg c' with
    | none =>
      exfalso
      simp [channel_contents, dictGetD, hq, dictGet] at h
    | some qs =>
      have hqs : dictGetD reg c' [] = qs := by simp [dictGetD, hq]
      simp only [channel_contents, hqs] at h
      simp only [put_event_to_conversation, hq, channel_contents, dictGetD,
        dictGet_dictInsert_self, Option.getD_some, if_pos]
      simpa [h] using dictGet_map_values qs (fun l => l ++ [e]) q
  · simp only [if_neg hc]
    match hq : dictGet reg c' with
    | none => simpa [put_event_to_conversation, hq] using h
    | some qs =>
      simp only [put_event_to_conversation, hq, channel_contents, dictGetD]
      rw [dictGet_dictInsert_ne _ _ _ _ hc]
      exact h

theorem channel_contents_register (s : ServiceState) (c' q' c q : Nat)
    (h : ¬(c' = c ∧ q' = q)) :
    channel_contents (register_sse s c' q').conversation_sse_queues c q
      = channel_contents s.conversation_sse_queues c q := by
  by_cases hc : c' = c
  · subst hc
    have hqne : q' ≠ q := fun hq => h ⟨rfl, hq⟩
    simp only [register_sse, channel_contents, dictGetD, dictGet_dictInsert_self,
      Option.getD_some]
    rw [dictGet_dictInsert_ne _ _ _ _ hqne]
  · simp only [register_sse, channel_contents, dictGetD]
    rw [dictGet_dictInsert_ne _ _ _ _ hc]

theorem channel_contents_unregister (reg : SseRegistry) (c' q' c q : Nat)
    (h : ¬(c' = c ∧ q' = q)) :
    channel_contents (unregister_sse reg c' q') c q
      = channel_contents reg c q := by
  match hq : dictGet reg c' with
  | none => simp [unregister_sse, hq]
  | some qs =>
    by_cases hc : c' = c
    · subst hc
      have hqne : q' ≠ q := fun hqq => h ⟨rfl, hqq⟩
      have hqs : dictGetD reg c' [] = qs := by simp [dictGetD, hq]
      by_cases hemp : (dictPop qs q').isEmpty
      · have hnil : dictPop qs q' = [] := by
          simpa [List.isEmpty_iff] using hemp
        have hnone : dictGet qs q = none := by
          rw [← dictGet_dictPop_ne qs q' q hqne, hnil]
          rfl
        simp [unregister_sse, hq, hemp, channel_contents, dictGetD,
          dictGet_dictPop_self, hnone, dictGet]
      · simp only [unregister_sse, hq, hemp, if_neg, Bool.false_eq_true,
          not_false_iff, channel_contents, dictGetD, dictGet_dictInsert_self,
          Option.getD_some, hqs]
        rw [dictGet_dictPop_ne qs q' q hqne]
    · by_cases hemp : (dictPop qs q').isEmpty
      · simp only [unregister_sse, hq, hemp, if_pos, channel_contents, dictGetD]
        rw [dictGet_dictPop_ne _ _ _ hc]
      · simp only [unregister_sse, hq, hemp, if_neg, Bool.false_eq_true,
          not_false_iff, channel_contents, dictGetD]
        rw [dictGet_dictInsert_ne _ _ _ _ hc]

/-- Envelopes accepted by the gate during a single operation: a `notify`
contributes its envelope exactly when the stop signal is clear. -/
def accepted_of_op (s : ServiceState) : ServiceOp → List ConversationEventQueueItem
  | .notify queue_item => if s.stop_signal then [] else [queue_item]
  | _ => []

theorem apply_op_channel_step (c q : Nat) (s : ServiceState) (op : ServiceOp)
    (ch : List ConversationEvent)
    (h : channel_contents s.conversation_sse_queues c q = some ch)
    (hop : op ≠ ServiceOp.connectSse c q ∧ op ≠ ServiceOp.disconnectSse c q) :
    ∃ ch', channel_contents (apply_op s op).conversation_sse_queues c q = some ch' ∧
      ch' ++ pending_user_events c (apply_op s op)
        = (ch ++ pending_user_events c s)
          ++ ((accepted_of_op s op).filter (user_event_for c)).map
              (fun queue_item => queue_item.event) := by
  cases op with
  | notify queue_item =>
    by_cases hstop : s.stop_signal
    · refine ⟨ch, ?_, ?_⟩
      · simpa [apply_op, notify_event, hstop] using h
      · simp [apply_op, notify_event, hstop, accepted_of_op]
    · refine ⟨ch, ?_, ?_⟩
      · simpa [apply_op, notify_event, hstop] using h
      · simp [apply_op, notify_event, hstop, accepted_of_op, pending_user_events,
          List.filter_append]
  | broadcast =>
    match hqe : s.conversation_event_queue with
    | [] =>
      refine ⟨ch, ?_, ?_⟩
      · simpa [apply_op, broadcast_step, hqe] using h
      · simp [apply_op, broadcast_step, hqe, accepted_of_op]
    | queue_item :: rest =>
      by_cases huser : "user" ∈ queue_item.event_audience
      · have hput := channel_contents_put_event s.conversation_sse_queues
          queue_item.event.conversation_id c q queue_item.event ch h
        by_cases hconv : queue_item.event.conversation_id = c
        · have hp : user_event_for c queue_item = true := by
            simp [user_event_for, huser, hconv]
          refine ⟨ch ++ [queue_item.event], ?_, ?_⟩
          · simp only [apply_op, broadcast_step, hqe, if_pos huser]
            rw [hput, if_pos hconv]
          · simp [apply_op, broadcast_step, hqe, accepted_of_op, pending_user_events,
              List.filter_cons, hp]
        · have hp : user_event_for c queue_item = false := by
            simp [user_event_for, hconv]
          refine ⟨ch, ?_, ?_⟩
          · simp only [apply_op, broadcast_step, hqe, if_pos huser]
            rw [hput, if_neg hconv]
          · simp [apply_op, broadcast_step, hqe, accepted_of_op, pending_user_events,
              List.filter_cons, hp]
      · have hp : user_event_for c queue_item = false := by
          simp [user_event_for, huser]
        refine ⟨ch, ?_, ?_⟩
        · simpa [apply_op, broadcast_step, hqe, huser] using h
        · simp [apply_op, broadcast_step, hqe, huser, accepted_of_op,
            pending_user_events, List.filter_cons, hp]
  | connectSse c' q' =>
    have hne : ¬(c' = c ∧ q' = q) := by
      rintro ⟨rfl, rfl⟩
      exact hop.1 rfl
    refine ⟨ch, ?_, ?_⟩
    · rw [show apply_op s (ServiceOp.connectSse c' q') = register_sse s c' q' from rfl,
        channel_contents_register s c' q' c q hne]
      exact h
    · simp [apply_op, register_sse, accepted_of_op, pending_user_events]
  | disconnectSse c' q' =>
    have hne : ¬(c' = c ∧ q' = q) := by
      rintro ⟨rfl, rfl⟩
      exact hop.2 rfl
    refine ⟨ch, ?_, ?_⟩
    · show channel_contents (unregister_sse s.conversation_sse_queues c' q') c q = some ch
      rw [channel_contents_unregister s.conversation_sse_queues c' q' c q hne]
      exact h
    · simp [apply_op, accepted_of_op, pending_user_events]
  | setStop =>
    refine ⟨ch, ?_, ?_⟩
    · simpa [apply_op] using h
    · simp [apply_op, accepted_of_op, pending_user_events]

theorem accepted_items_cons (s : ServiceState) (op : ServiceOp) (ops : List ServiceOp) :
    accepted_items s (op :: ops)
      = accepted_of_op s op ++ accepted_items (apply_op s op) ops := by
  cases op <;> simp [accepted_items, accepted_of_op]

theorem run_ops_channel_invariant (c q : Nat) :
    ∀ (ops : List ServiceOp) (s : ServiceState) (ch : List ConversationEvent),
    channel_contents s.conversation_sse_queues c q = some ch →
    (∀ op ∈ ops, op ≠ ServiceOp.connectSse c q ∧ op ≠ ServiceOp.disconnectSse c q) →
    ∃ ch', channel_contents (run_ops s ops).conversation_sse_queues c q = some ch' ∧
      ch' ++ pending_user_events c (run_ops s ops)
        = (ch ++ pending_user_events c s)
          ++ ((accepted_items s ops).filter (user_event_for c)).map
              (fun queue_item => queue_item.event) := by
  intro ops
  induction ops with
  | nil =>
    intro s ch h _
    exact ⟨ch, h, by simp [run_ops, accepted_items]⟩
  | cons op rest ih =>
    intro s ch h hops
    obtain ⟨hop, hrest⟩ := List.forall_mem_cons.mp hops
    obtain ⟨ch₁, h₁, heq₁⟩ := apply_op_channel_step c q s op ch h hop
    obtain ⟨ch', h', heq'⟩ := ih (apply_op s op) ch₁ h₁ hrest
    refine ⟨ch', by simpa [run_ops] using h', ?_⟩
    calc ch' ++ pending_user_events c (run_ops s (op :: rest))
      = ch' ++ pending_user_events c (run_ops (apply_op s op) rest) := by rw [run_ops]
    _ = (ch₁ ++ pending_user_events c (apply_op s op))
          ++ ((accepted_items (apply_op s op) rest).filter (user_event_for c)).map
              (fun queue_item => queue_item.event) := heq'
    _ = ((ch ++ pending_user_events c s)
          ++ ((accepted_of_op s op).filter (user_event_for c)).map
              (fun queue_item => queue_item.event))
          ++ ((accepted_items (apply_op s op) rest).filter (user_event_for c)).map
              (fun queue_item => queue_item.event) := by rw [heq₁]
    _ = (ch ++ pending_user_events c s)
          ++ ((accepted_items s (op :: rest)).filter (user_event_for c)).map
              (fun queue_item => queue_item.event) := by
        rw [accepted_items_cons, List.filter_append, List.map_append, List.append_assoc]

theorem drain_steps_eq_run_ops : ∀ (n : Nat) (s : ServiceState),
    drain_steps s n = run_ops s (List.replicate n ServiceOp.broadcast) := by
  intro n
  induction n with
  | zero => intro s; simp [drain_steps, run_ops, List.replicate]
  | succ n ih =>
    intro s
    rw [List.replicate_succ]
    simpa [drain_steps, run_ops, apply_op] using ih (broadcast_step s)

theorem drain_steps_queue_nil : ∀ (n : Nat) (s : ServiceState),
    s.conversation_event_queue.length = n →
    (drain_steps s n).conversation_event_queue = [] := by
  intro n
  induction n with
  | zero =>
    intro s h
    simpa [drain_steps] using List.length_eq_zero.mp h
  | succ n ih =>
    intro s h
    match hqe : s.conversation_event_queue with
    | [] => rw [hqe] at h; simp at h
    | queue_item :: rest =>
      rw [hqe] at h
      simp only [List.length_cons, Nat.succ_inj] at h
      rw [drain_steps]
      exact ih (broadcast_step s) (by simp [broadcast_step, hqe, h])

theorem accepted_items_replicate_broadcast : ∀ (n : Nat) (s : ServiceState),
    accepted_items s (List.replicate n ServiceOp.broadcast) = [] := by
  intro n
  induction n with
  | zero => intro s; simp [accepted_items, List.replicate]
  | succ n ih =>
    intro s
    rw [List.replicate_succ]
    simpa [accepted_items] using ih (broadcast_step s)

/-- C1: for every sequence of envelopes submitted via the ingestion gate
before the stop signal is set, a subscriber registered for conversation `c`
before the first submission that stays registered until the last fan-out
completes receives exactly the events whose audience contains "user" and
whose conversation id equals `c`, in submission (FIFO) order.  The trace
`ops` may interleave submissions, broadcaster iterations, the stop signal,
and connect/disconnect of other subscribers; `accepted_items` is the list
of envelopes the gate accepted (those submitted before the stop signal),
and after the queue drains the subscriber's channel holds exactly their
"user"-audience events for `c`, in order. -/
theorem claim_C1_subscriber_receives_exactly_filtered_fifo
    (c q : Nat) (ops : List ServiceOp) (s₀ : ServiceState)
    (hch : channel_contents s₀.conversation_sse_queues c q = some [])
    (hq : s₀.conversation_event_queue = [])
    (hops : ∀ op ∈ ops, op ≠ ServiceOp.connectSse c q ∧ op ≠ ServiceOp.disconnectSse c q) :
    channel_contents (drain_queue (run_ops s₀ ops)).conversation_sse_queues c q
      = some (((accepted_items s₀ ops).filter (user_event_for c)).map
          (fun queue_item => queue_item.event)) := by
  obtain ⟨ch₁, h₁, heq₁⟩ := run_ops_channel_invariant c q ops s₀ [] hch hops
  have hrep : ∀ op ∈ List.replicate
      (run_ops s₀ ops).conversation_event_queue.length ServiceOp.broadcast,
      op ≠ ServiceOp.connectSse c q ∧ op ≠ ServiceOp.disconnectSse c q := by
    intro op hmem
    rw [List.eq_of_mem_replicate hmem]
    exact ⟨fun hcontra => ServiceOp.noConfusion hcontra,
           fun hcontra => ServiceOp.noConfusion hcontra⟩
  obtain ⟨ch₂, h₂, heq₂⟩ := run_ops_channel_invariant c q _ (run_ops s₀ ops) ch₁ h₁ hrep
  have hdq : drain_queue (run_ops s₀ ops)
      = run_ops (run_ops s₀ ops) (List.replicate
          (run_ops s₀ ops).conversation_event_queue.length ServiceOp.broadcast) := by
    rw [drain_queue, drain_steps_eq_run_ops]
  have hnil : (drain_queue (run_ops s₀ ops)).conversation_event_queue = [] :=
    drain_steps_queue_nil _ (run_ops s₀ ops) rfl
  have hpend₂ : pending_user_events c (drain_queue (run_ops s₀ ops)) = [] := by
    simp [pending_user_events, hnil]
  have hpend₀ : pending_user_events c s₀ = [] := by
    simp [pending_user_events, hq]
  rw [hdq] at hnil hpend₂ ⊢
  rw [accepted_items_replicate_broadcast] at heq₂
  simp only [List.filter_nil, List.map_nil, List.append_nil] at heq₂
  rw [hpend₂, List.append_nil] at heq₂
  rw [hpend₀] at heq₁
  simp only [List.append_nil, List.nil_append] at heq₁
  rw [h₂, heq₂, heq₁]

/-- Witness for C1: a subscriber with queue id 7 on conversation 1,
registered from the start, observes exactly the "user"-audience events of
conversation 1 (an event of another conversation and an assistant-only
event are not delivered to it), in submission order, interleaved with
broadcaster iterations. -/
theorem claim_C1_witness :
    channel_contents (register_sse init_service_state 1 7).conversation_sse_queues 1 7
        = some [] ∧
    (register_sse init_service_state 1 7).conversation_event_queue = [] ∧
    (∀ op ∈ [ServiceOp.notify ⟨⟨10, 1, "message.created", 100, 1000, "p1"⟩, ["user"]⟩,
             ServiceOp.broadcast,
             ServiceOp.notify ⟨⟨11, 2, "message.created", 101, 1001, "p2"⟩, ["user"]⟩,
             ServiceOp.notify ⟨⟨12, 1, "assistant.state", 102, 1002, "p3"⟩, ["assistant"]⟩,
             ServiceOp.notify ⟨⟨13, 1, "message.deleted", 103, 1003, "p4"⟩,
               ["assistant", "user"]⟩],
        op ≠ ServiceOp.connectSse 1 7 ∧ op ≠ ServiceOp.disconnectSse 1 7) ∧
    channel_contents
        (drain_queue (run_ops (register_sse init_service_state 1 7)
          [ServiceOp.notify ⟨⟨10, 1, "message.created", 100, 1000, "p1"⟩, ["user"]⟩,
           ServiceOp.broadcast,
           ServiceOp.notify ⟨⟨11, 2, "message.created", 101, 1001, "p2"⟩, ["user"]⟩,
           ServiceOp.notify ⟨⟨12, 1, "assistant.state", 102, 1002, "p3"⟩, ["assistant"]⟩,
           ServiceOp.notify ⟨⟨13, 1, "message.deleted", 103, 1003, "p4"⟩,
             ["assistant", "user"]⟩])).conversation_sse_queues 1 7
      = some (((accepted_items (register_sse init_service_state 1 7)
          [ServiceOp.notify ⟨⟨10, 1, "message.created", 100, 1000, "p1"⟩, ["user"]⟩,
           ServiceOp.broadcast,
           ServiceOp.notify ⟨⟨11, 2, "message.created", 101, 1001, "p2"⟩, ["user"]⟩,
           ServiceOp.notify ⟨⟨12, 1, "assistant.state", 102, 1002, "p3"⟩, ["assistant"]⟩,
           ServiceOp.notify ⟨⟨13, 1, "message.deleted", 103, 1003, "p4"⟩,
             ["assistant", "user"]⟩]).filter (user_event_for 1)).map
          (fun queue_item => queue_item.event)) :=
  ⟨by decide, by decide, by decide,
   claim_C1_subscriber_receives_exactly_filtered_fifo 1 7 _ _
     (by decide) (by decide) (by decide)⟩

theorem drain_steps_dispatched : ∀ (n : Nat) (s : ServiceState),
    s.conversation_event_queue.length = n →
    (drain_steps s n).dispatched = s.dispatched ++ s.conversation_event_queue := by
  intro n
  induction n with
  | zero =>
    intro s h
    rw [List.length_eq_zero.mp h]
    simp [drain_steps]
  | succ n ih =>
    intro s h
    match hqe : s.conversation_event_queue with
    | [] => rw [hqe] at h; simp at h
    | queue_item :: rest =>
      rw [hqe] at h
      simp only [List.length_cons, Nat.succ_inj] at h
      rw [drain_steps]
      have hib := ih (broadcast_step s) (by simp [broadcast_step, hqe, h])
      rw [hib]
      simp [broadcast_step, hqe]

/-- Steps of the `finally` block of `_lifespan` (service.py lines 190-201),
one constructor per awaited or performed action. -/
inductive ShutdownAction where
  | setStopSignal
  | joinEventQueue
  | cancelTask (name : String)
  | disposeEngine
  | awaitTasksSuppressingCancelled
deriving DecidableEq, BEq, Repr

/-- Shutdown sequence performed by the `finally` block of `_lifespan`
(service.py lines 190-201), in source order: `stop_signal.set()` (line
192), `await conversation_event_queue.join()` (line 193), `task.cancel()`
for the two background tasks (lines 195-196), `await engine.dispose()`
(line 198), and finally `await asyncio.gather(*tasks,
return_exceptions=True)` inside `contextlib.suppress(
asyncio.CancelledError)` (lines 200-201). -/
def lifespan_finally_actions : List ShutdownAction :=
  [ShutdownAction.setStopSignal,
   ShutdownAction.joinEventQueue,
   ShutdownAction.cancelTask "broadcast_conversation_events",
   ShutdownAction.cancelTask "update_assistant_service_online_status",
   ShutdownAction.disposeEngine,
   ShutdownAction.awaitTasksSuppressingCancelled]

/-- C3: after the stop signal is set during shutdown, no new envelope is
accepted (the gate returns with the state unchanged), and every envelope in
the delivery queue at that moment is dequeued and completes its fan-out —
it reaches `task_done`, recorded in `dispatched` — by the time the drain
finishes; the shutdown sequence awaits the queue join before it cancels
the broadcaster, so no accepted envelope is lost. -/
theorem claim_C3_drain_completes_before_cancel (s : ServiceState)
    (queue_item : ConversationEventQueueItem) :
    notify_event { s with stop_signal := true } queue_item
        = { s with stop_signal := true } ∧
    (drain_queue { s with stop_signal := true }).conversation_event_queue = [] ∧
    (drain_queue { s with stop_signal := true }).dispatched
        = s.dispatched ++ s.conversation_event_queue ∧
    lifespan_finally_actions.indexOf ShutdownAction.joinEventQueue
        < lifespan_finally_actions.indexOf
            (ShutdownAction.cancelTask "broadcast_conversation_events") := by
  refine ⟨by simp [notify_event], ?_, ?_, by decide⟩
  · exact drain_steps_queue_nil _ _ rfl
  · exact drain_steps_dispatched _ _ rfl

/-- C4 counterexample: the claim states that shared resources (the
database engine) are released only after the cancelled tasks' termination
has been awaited, i.e. that `await engine.dispose()` comes after the
suppressed `await asyncio.gather(*tasks, ...)`; in the source's `finally`
block the dispose (line 198) precedes that await (lines 200-201). -/
theorem claim_C4_counterexample :
    ¬ (lifespan_finally_actions.indexOf ShutdownAction.awaitTasksSuppressingCancelled
        < lifespan_finally_actions.indexOf ShutdownAction.disposeEngine) := by
  decide

/-- C4 (amended): the shutdown coordinator performs its steps strictly in
this order: (1) set the stop signal, (2) wait until the delivery queue is
fully drained, (3) cancel the broadcaster and the periodic background
task, (4) release its shared resource (dispose the database engine), and
(5) only then await the cancelled tasks' termination while suppressing
cancellation errors — the engine is released after cancellation is
requested but before the cancelled tasks are awaited. -/
theorem claim_C4_amended_shutdown_order :
    lifespan_finally_actions.indexOf ShutdownAction.setStopSignal = 0 ∧
    lifespan_finally_actions.indexOf ShutdownAction.joinEventQueue = 1 ∧
    lifespan_finally_actions.indexOf
        (ShutdownAction.cancelTask "broadcast_conversation_events") = 2 ∧
    lifespan_finally_actions.indexOf
        (ShutdownAction.cancelTask "update_assistant_service_online_status") = 3 ∧
    lifespan_finally_actions.indexOf ShutdownAction.disposeEngine = 4 ∧
    lifespan_finally_actions.indexOf ShutdownAction.awaitTasksSuppressingCancelled = 5 := by
  decide

/-- C5: a call to `_notify_event` made while the stop signal is set
returns normally with the whole state — in particular the delivery
queue — unchanged (the drop is log-only), and a call made while the signal
is clear appends the envelope to the queue tail; the embedding is a total
function, so neither path raises, and the producer is never blocked on a
delivery outcome. -/
theorem claim_C5_gate_drop_or_enqueue (s : ServiceState)
    (queue_item : ConversationEventQueueItem) :
    (s.stop_signal = true → notify_event s queue_item = s) ∧
    (s.stop_signal = false →
      notify_event s queue_item
        = { s with conversation_event_queue :=
              s.conversation_event_queue ++ [queue_item] }) := by
  constructor <;> intro h <;> simp [notify_event, h]

/-- Witness for C5: a concrete envelope is dropped with the state
unchanged when the stop signal is set, and is appended to the queue tail
when it is clear. -/
theorem claim_C5_witness :
    notify_event { init_service_state with stop_signal := true }
        ⟨⟨10, 1, "message.created", 100, 1000, "p1"⟩, ["user"]⟩
      = { init_service_state with stop_signal := true } ∧
    notify_event init_service_state
        ⟨⟨10, 1, "message.created", 100, 1000, "p1"⟩, ["user"]⟩
      = { init_service_state with conversation_event_queue :=
            [⟨⟨10, 1, "message.created", 100, 1000, "p1"⟩, ["user"]⟩] } :=
  ⟨(claim_C5_gate_drop_or_enqueue _ _).1 rfl,
   by
    have h := (claim_C5_gate_drop_or_enqueue init_service_state
      ⟨⟨10, 1, "message.created", 100, 1000, "p1"⟩, ["user"]⟩).2 rfl
    simpa [init_service_state] using h⟩

theorem mem_dictPop {α : Type} (d : List (Nat × α)) (k : Nat) (entry : Nat × α)
    (h : entry ∈ dictPop d k) : entry ∈ d := by
  induction d with
  | nil => simp [dictPop] at h
  | cons hd tl ih =>
    by_cases hh : hd.1 = k
    · simp only [dictPop, if_pos hh] at h
      exact List.mem_cons_of_mem hd (ih h)
    · simp only [dictPop, if_neg hh, List.mem_cons] at h
      rcases h with h | h
      · exact h ▸ List.mem_cons_self hd tl
      · exact List.mem_cons_of_mem hd (ih h)

theorem mem_dictInsert {α : Type} (d : List (Nat × α)) (k : Nat) (v : α) (entry : Nat × α)
    (h : entry ∈ dictInsert d k v) : entry = (k, v) ∨ entry ∈ d := by
  induction d with
  | nil => simpa [dictInsert] using h
  | cons hd tl ih =>
    by_cases hh : hd.1 = k
    · simp only [dictInsert, if_pos hh, List.mem_cons] at h
      rcases h with h | h
      · exact Or.inl h
      · exact Or.inr (List.mem_cons_of_mem hd h)
    · simp only [dictInsert, if_neg hh, List.mem_cons] at h
      rcases h with h | h
      · exact Or.inr (h ▸ List.mem_cons_self hd tl)
      · rcases ih h with h' | h'
        · exact Or.inl h'
        · exact Or.inr (List.mem_cons_of_mem hd h')

theorem dictInsert_ne_nil {α : Type} (d : List (Nat × α)) (k : Nat) (v : α) :
    dictInsert d k v ≠ [] := by
  cases d with
  | nil => simp [dictInsert]
  | cons hd tl =>
    by_cases hh : hd.1 = k <;> simp [dictInsert, hh]

theorem dictGet_mem {α : Type} (d : List (Nat × α)) (k : Nat) (v : α)
    (h : dictGet d k = some v) : (k, v) ∈ d := by
  induction d with
  | nil => simp [dictGet] at h
  | cons hd tl ih =>
    by_cases hh : hd.1 = k
    · simp only [dictGet, if_pos hh, Option.some_inj] at h
      subst h
      rw [← hh]
      exact List.mem_cons_self hd tl
    · simp only [dictGet, if_neg hh] at h
      exact List.mem_cons_of_mem hd (ih h)

/-- Termination conditions of a streaming session's loop in
`event_generator` (service.py lines 539-581): the global stop signal
(lines 540-542), external removal of the session's registration (lines
544-546), client disconnect (lines 548-551), an error escaping the
generator, or its cancellation. -/
inductive SseExitReason where
  | stopSignalSet
  | conversationEnded
  | clientDisconnected
  | sendError
  | cancelled
deriving DecidableEq, Repr

/-- Scoped cleanup of `event_generator` (service.py lines 583-587): the
`finally` block runs the same deregistration — `queues.pop(queue_id,
None)` and, when the subscriber map became empty,
`conversation_sse_queues.pop(conversation_id, None)` — on every exit path
of the loop. -/
def event_generator_cleanup (reason : SseExitReason) (reg : SseRegistry)
    (c queue_id : Nat) : SseRegistry :=
  match reason with
  | _ => unregister_sse reg c queue_id

/-- Registry well-formedness stated by the spec: every stored conversation
entry has at least one live subscriber, i.e. a non-empty subscriber map. -/
def registry_entries_nonempty (reg : SseRegistry) : Prop :=
  ∀ entry ∈ reg, entry.2 ≠ []

/-- C6: on every exit path of a streaming session the same cleanup runs
and removes the session's registration; whenever that removal leaves the
conversation's subscriber map empty, the conversation's entry is removed
entirely; the non-empty-entries invariant is preserved by both cleanup and
registration, and under it a registry entry for a conversation exists iff
the conversation has at least one live subscriber. -/
theorem claim_C6_cleanup_removes_registration_and_empty_entries
    (reason : SseExitReason) (s : ServiceState) (c queue_id c' : Nat) :
    event_generator_cleanup reason s.conversation_sse_queues c queue_id
        = unregister_sse s.conversation_sse_queues c queue_id ∧
    channel_contents (unregister_sse s.conversation_sse_queues c queue_id) c queue_id
        = none ∧
    (registry_entries_nonempty s.conversation_sse_queues →
      registry_entries_nonempty (unregister_sse s.conversation_sse_queues c queue_id)) ∧
    (registry_entries_nonempty s.conversation_sse_queues →
      registry_entries_nonempty (register_sse s c queue_id).conversation_sse_queues) ∧
    (registry_entries_nonempty s.conversation_sse_queues →
      ((dictGet s.conversation_sse_queues c').isSome
        ↔ dictGetD s.conversation_sse_queues c' [] ≠ [])) := by
  refine ⟨rfl, ?_, ?_, ?_, ?_⟩
  · match hq : dictGet s.conversation_sse_queues c with
    | none => simp [unregister_sse, hq, channel_contents, dictGetD, dictGet]
    | some qs =>
      by_cases hemp : (dictPop qs queue_id).isEmpty
      · simp [unregister_sse, hq, hemp, channel_contents, dictGetD,
          dictGet_dictPop_self, dictGet]
      · simp [unregister_sse, hq, hemp, channel_contents, dictGetD,
          dictGet_dictInsert_self, dictGet_dictPop_self]
  · intro hinv
    match hq : dictGet s.conversation_sse_queues c with
    | none =>
      simp only [unregister_sse, hq]
      exact hinv
    | some qs =>
      by_cases hemp : (dictPop qs queue_id).isEmpty
      · simp only [unregister_sse, hq, hemp, if_pos]
        intro entry hmem
        exact hinv entry (mem_dictPop _ _ _ hmem)
      · simp only [unregister_sse, hq, hemp, Bool.false_eq_true, if_neg,
          not_false_iff]
        intro entry hmem
        rcases mem_dictInsert _ _ _ _ hmem with h | h
        · subst h
          simpa [List.isEmpty_iff] using hemp
        · exact hinv entry h
  · intro hinv entry hmem
    rcases mem_dictInsert _ _ _ _ hmem with h | h
    · subst h
      exact dictInsert_ne_nil _ _ _
    · exact hinv entry h
  · intro hinv
    constructor
    · intro hsome
      match hq : dictGet s.conversation_sse_queues c' with
      | none => simp [hq] at hsome
      | some qs =>
        have := hinv (c', qs) (dictGet_mem _ _ _ hq)
        simpa [dictGetD, hq] using this
    · intro hne
      match hq : dictGet s.conversation_sse_queues c' with
      | none => simp [dictGetD, hq] at hne
      | some qs => simp [hq]

/-- Witness for C6: with one subscriber (queue id 7) registered on
conversation 1, the client-disconnect exit path removes the registration
and, the subscriber map having become empty, the whole conversation entry;
the non-empty-entries invariant is preserved and the exists-iff-non-empty
characterization holds. -/
theorem claim_C6_witness :
    event_generator_cleanup SseExitReason.clientDisconnected [(1, [(7, [])])] 1 7
        = unregister_sse [(1, [(7, [])])] 1 7 ∧
    channel_contents (unregister_sse [(1, [(7, [])])] 1 7) 1 7 = none ∧
    registry_entries_nonempty (unregister_sse [(1, [(7, [])])] 1 7) ∧
    registry_entries_nonempty
        (register_sse { init_service_state with
          conversation_sse_queues := [(1, [(7, [])])] } 1 7).conversation_sse_queues ∧
    ((dictGet ([(1, [(7, [])])] : SseRegistry) 1).isSome
      ↔ dictGetD ([(1, [(7, [])])] : SseRegistry) 1 [] ≠ []) := by
  have h := claim_C6_cleanup_removes_registration_and_empty_entries
    SseExitReason.clientDisconnected
    { init_service_state with conversation_sse_queues := [(1, [(7, [])])] } 1 7 1
  exact ⟨h.1, h.2.1, h.2.2.1 (by simp [registry_entries_nonempty]),
    h.2.2.2.1 (by simp [registry_entries_nonempty]),
    h.2.2.2.2 (by simp [registry_entries_nonempty])⟩

/-- C10: session deregistration is total and idempotent: running the
cleanup twice equals running it once; when the conversation entry is
absent the registry is returned unchanged; and when the subscriber id is
absent from a (non-empty) conversation entry the registry is returned
unchanged — all cases are handled by defaulted lookups, and the embedding
is a total function, so no case raises. -/
theorem claim_C10_unregister_total_idempotent (reg : SseRegistry) (c queue_id : Nat) :
    unregister_sse (unregister_sse reg c queue_id) c queue_id
        = unregister_sse reg c queue_id ∧
    (dictGet reg c = none → unregister_sse reg c queue_id = reg) ∧
    (∀ qs, dictGet reg c = some qs → dictGet qs queue_id = none → qs ≠ [] →
      unregister_sse reg c queue_id = reg) := by
  refine ⟨?_, ?_, ?_⟩
  · match hq : dictGet reg c with
    | none => simp [unregister_sse, hq]
    | some qs =>
      by_cases hemp : (dictPop qs queue_id).isEmpty
      · simp only [unregister_sse, hq, hemp, if_pos]
        simp [unregister_sse, dictGet_dictPop_self]
      · simp only [unregister_sse, hq, hemp, Bool.false_eq_true, if_neg, not_false_iff]
        have hget : dictGet (dictInsert reg c (dictPop qs queue_id)) c
            = some (dictPop qs queue_id) := dictGet_dictInsert_self _ _ _
        have hpop : dictPop (dictPop qs queue_id) queue_id = dictPop qs queue_id :=
          dictPop_get_none _ _ (dictGet_dictPop_self _ _)
        simp only [unregister_sse, hget, hpop, hemp, Bool.false_eq_true, if_neg,
          not_false_iff]
        exact dictInsert_get_self _ _ _ hget
  · intro hq
    simp [unregister_sse, hq]
  · intro qs hq hqueue hne
    have hpop : dictPop qs queue_id = qs := dictPop_get_none _ _ hqueue
    have hqsemp : qs.isEmpty = false := by
      simpa [List.isEmpty_iff] using hne
    simp only [unregister_sse, hq, hpop, hqsemp, Bool.false_eq_true, if_neg,
      not_false_iff]
    exact dictInsert_get_self _ _ _ hq

/-- Witness for C10: a double cleanup of subscriber 7 on conversation 1
equals a single one; cleanup of an unknown conversation 2, and cleanup of
an unknown subscriber 9 of conversation 1, each leave the registry
unchanged. -/
theorem claim_C10_witness :
    unregister_sse (unregister_sse [(1, [(7, [])])] 1 7) 1 7
        = unregister_sse [(1, [(7, [])])] 1 7 ∧
    unregister_sse [(1, [(7, [])])] 2 7 = [(1, [(7, [])])] ∧
    unregister_sse [(1, [(7, [])])] 1 9 = [(1, [(7, [])])] :=
  ⟨(claim_C10_unregister_total_idempotent [(1, [(7, [])])] 1 7).1,
   (claim_C10_unregister_total_idempotent [(1, [(7, [])])] 2 7).2.1 (by decide),
   (claim_C10_unregister_total_idempotent [(1, [(7, [])])] 1 9).2.2
     [(7, [])] (by decide) (by decide) (by decide)⟩

/-- Tasks spawned into the `asyncio.TaskGroup` of one broadcaster
iteration: the assistant forwarder call and one `queue.put(event)` per
subscriber queue. -/
inductive FanoutTask where
  | forwardToAssistants (e : ConversationEvent)
  | putToSseQueue (c queue_id : Nat) (e : ConversationEvent)
deriving DecidableEq, Repr

/-- Fan-out set built for one dequeued envelope by
`_broadcast_conversation_events` (service.py lines 224-243): one
`forward_event_to_assistants` task when the audience contains "assistant"
(lines 225-226), and one `queue.put(event)` task per subscriber currently
registered for the event's conversation when the audience contains "user"
(lines 234-236), the subscribers being read with the non-inserting
`conversation_sse_queues.get(event.conversation_id, ...)` defaulting to an
empty dict. -/
def fanout_tasks (reg : SseRegistry) (queue_item : ConversationEventQueueItem) :
    List FanoutTask :=
  (if "assistant" ∈ queue_item.event_audience
   then [FanoutTask.forwardToAssistants queue_item.event]
   else [])
  ++ (if "user" ∈ queue_item.event_audience
      then (dictGetD reg queue_item.event.conversation_id []).map
          (fun q => FanoutTask.putToSseQueue queue_item.event.conversation_id q.1
              queue_item.event)
      else [])

/-- C7: the fan-out set of a dequeued envelope is built exactly from its
audience — it holds the assistant-forwarder task iff the audience
contains "assistant", and a channel-append task for subscriber `q` of the
event's conversation iff the audience contains "user" and `q` is currently
registered for that conversation; when the conversation has no registry
entry and the audience is only "user", the fan-out set is empty, so the
envelope is processed and discarded without any subscriber task and
without error (the embedding is total). -/
theorem claim_C7_fanout_set_built_from_audience
    (reg : SseRegistry) (queue_item : ConversationEventQueueItem) :
    (∀ e, FanoutTask.forwardToAssistants e ∈ fanout_tasks reg queue_item
        ↔ (e = queue_item.event ∧ "assistant" ∈ queue_item.event_audience)) ∧
    (∀ c q e, FanoutTask.putToSseQueue c q e ∈ fanout_tasks reg queue_item
        ↔ (e = queue_item.event ∧ c = queue_item.event.conversation_id ∧
           "user" ∈ queue_item.event_audience ∧
           q ∈ (dictGetD reg queue_item.event.conversation_id []).map Prod.fst)) ∧
    (dictGet reg queue_item.event.conversation_id = none →
      "assistant" ∉ queue_item.event_audience →
      fanout_tasks reg queue_item = []) := by
  refine ⟨?_, ?_, ?_⟩
  · intro e
    by_cases ha : "assistant" ∈ queue_item.event_audience <;>
      by_cases hu : "user" ∈ queue_item.event_audience <;>
        simp [fanout_tasks, ha, hu]
  · intro c q e
    by_cases ha : "assistant" ∈ queue_item.event_audience <;>
      by_cases hu : "user" ∈ queue_item.event_audience <;>
        simp [fanout_tasks, ha, hu, List.mem_map] <;>
        aesop
  · intro hnone ha
    simp [fanout_tasks, ha, dictGetD, hnone]

/-- Witness for C7: an envelope for conversation 1 with audience
\x7b"user"\x7d against a registry that has no entry for conversation 1
produces an empty fan-out set, and its characterizations hold for a
registry with subscriber 7 on conversation 1. -/
theorem claim_C7_witness :
    (FanoutTask.forwardToAssistants ⟨10, 1, "message.created", 100, 1000, "p1"⟩
        ∈ fanout_tasks [(1, [(7, [])])]
            ⟨⟨10, 1, "message.created", 100, 1000, "p1"⟩, ["user"]⟩
      ↔ ((⟨10, 1, "message.created", 100, 1000, "p1"⟩ : ConversationEvent)
            = ⟨10, 1, "message.created", 100, 1000, "p1"⟩ ∧
         "assistant" ∈ ["user"])) ∧
    (FanoutTask.putToSseQueue 1 7 ⟨10, 1, "message.created", 100, 1000, "p1"⟩
        ∈ fanout_tasks [(1, [(7, [])])]
            ⟨⟨10, 1, "message.created", 100, 1000, "p1"⟩, ["user"]⟩
      ↔ ((⟨10, 1, "message.created", 100, 1000, "p1"⟩ : ConversationEvent)
            = ⟨10, 1, "message.created", 100, 1000, "p1"⟩ ∧
         1 = 1 ∧ "user" ∈ ["user"] ∧
         7 ∈ (dictGetD ([(1, [(7, [])])] : SseRegistry) 1 []).map Prod.fst)) ∧
    fanout_tasks [] ⟨⟨10, 1, "message.created", 100, 1000, "p1"⟩, ["user"]⟩ = [] :=
  ⟨(claim_C7_fanout_set_built_from_audience [(1, [(7, [])])]
      ⟨⟨10, 1, "message.created", 100, 1000, "p1"⟩, ["user"]⟩).1 _,
   (claim_C7_fanout_set_built_from_audience [(1, [(7, [])])]
      ⟨⟨10, 1, "message.created", 100, 1000, "p1"⟩, ["user"]⟩).2.1 1 7 _,
   (claim_C7_fanout_set_built_from_audience []
      ⟨⟨10, 1, "message.created", 100, 1000, "p1"⟩, ["user"]⟩).2.2
     (by decide) (by decide)⟩

/-- Field list of a `ConversationEvent` in the spec's declaration order
(unique id, conversation id, event kind, correlation id, timestamp,
payload), each value rendered opaquely; pydantic's
`model_dump_json(include=...)` serializes exactly the fields whose names
are in the include set, in declaration order, which the filter below
mirrors. -/
def conversation_event_fields (e : ConversationEvent) : List (String × String) :=
  [("id", toString e.id),
   ("conversation_id", toString e.conversation_id),
   ("event", e.event),
   ("correlation_id", toString e.correlation_id),
   ("timestamp", toString e.timestamp),
   ("data", e.data)]

/-- Serialization `e.model_dump_json(include=incl)`: keep a field iff its
name is in the include set. -/
def model_dump_fields (e : ConversationEvent) (incl : List String) :
    List (String × String) :=
  (conversation_event_fields e).filter (fun f => incl.contains f.1)

/-- Wire record emitted per event by `event_generator` (service.py lines
572-577): `ServerSentEvent(id=..., event=..., data=..., retry=...)`. -/
structure ServerSentEventRecord where
  id : Nat
  event : String
  data : List (String × String)
  retry : Nat
deriving DecidableEq, Repr

/-- Construction of the wire record (service.py lines 572-577): the
event's id, its kind label (`event.value`), the serialization of only the
timestamp and data fields (`model_dump_json(include={"timestamp",
"data"})` — braces elided here), and the suggested retry interval 1000. -/
def server_sent_event_of (e : ConversationEvent) : ServerSentEventRecord :=
  { id := e.id
    event := e.event
    data := model_dump_fields e ["timestamp", "data"]
    retry := 1000 }

/-- C8: the wire record emitted for a dequeued event consists of exactly
the event's id, the event-kind label as the event field, the serialization
of only the timestamp and payload fields as the data field, and the
suggested client retry interval of 1000 ms. -/
theorem claim_C8_wire_record_fields (e : ConversationEvent) :
    (server_sent_event_of e).id = e.id ∧
    (server_sent_event_of e).event = e.event ∧
    (server_sent_event_of e).data
        = [("timestamp", toString e.timestamp), ("data", e.data)] ∧
    (server_sent_event_of e).retry = 1000 :=
  ⟨rfl, rfl, rfl, rfl⟩

/-- Shape of the subscriber registry: its conversation ids and, per
conversation, its subscriber ids — everything except the contents queued
in the subscriber channels. -/
def registry_shape (reg : SseRegistry) : List (Nat × List Nat) :=
  reg.map (fun entry => (entry.1, entry.2.map Prod.fst))

theorem registry_shape_dictInsert_same_keys (reg : SseRegistry) (c : Nat)
    (qs qs' : SseQueueDict) (hget : dictGet reg c = some qs)
    (hkeys : qs'.map Prod.fst = qs.map Prod.fst) :
    registry_shape (dictInsert reg c qs') = registry_shape reg := by
  induction reg with
  | nil => simp [dictGet] at hget
  | cons hd tl ih =>
    obtain ⟨a, b⟩ := hd
    by_cases hh : a = c
    · subst hh
      have hb : b = qs := by simpa [dictGet] using hget
      subst hb
      simp [dictInsert, registry_shape, hkeys]
    · simp only [dictGet, if_neg hh] at hget
      simp only [dictInsert, if_neg hh, registry_shape, List.map_cons]
      have hrec := ih hget
      simp only [registry_shape] at hrec
      rw [hrec]

theorem registry_shape_put_event (reg : SseRegistry) (c : Nat) (e : ConversationEvent) :
    registry_shape (put_event_to_conversation reg c e) = registry_shape reg := by
  match hq : dictGet reg c with
  | none => simp [put_event_to_conversation, hq]
  | some qs =>
    simp only [put_event_to_conversation, hq]
    refine registry_shape_dictInsert_same_keys reg c qs _ hq ?_
    simp [List.map_map, Function.comp]

/-- C9: processing an envelope in the broadcaster never mutates the
subscriber registry: after one broadcaster iteration the registry has the
same conversation entries and the same subscriber ids per conversation as
before (events are only appended inside existing channels); in particular
the enumeration's defaulted lookup creates no entry for an unknown
conversation. -/
theorem claim_C9_broadcast_preserves_registry_shape (s : ServiceState) :
    registry_shape (broadcast_step s).conversation_sse_queues
      = registry_shape s.conversation_sse_queues := by
  match hqe : s.conversation_event_queue with
  | [] => simp [broadcast_step, hqe]
  | queue_item :: rest =>
    by_cases huser : "user" ∈ queue_item.event_audience <;>
      simp [broadcast_step, hqe, huser, registry_shape_put_event]

end SemanticWorkbench
